import Mathlib

/-!
Shallow embedding of `src/main/cpp/TestCase.cpp` from the
`demonstrate-nan-usage` repository.

Modelling conventions:
* `double` and `float` values flowing through the arithmetic are modelled as
  exact rationals (`ℚ`); a `double` that may be NaN is an `Option ℚ` with
  `none` standing for NaN, so that NaN propagation through `-` and `fma`
  becomes `none` propagation.
* 32-bit float bit patterns are modelled as `Nat` (below `2 ^ 32`), and the
  C++ reinterpretation `int32_t` view as `toSigned`.
* Files are abstracted as `Option (List Nat)` (the byte contents when the
  file exists), allocation success as a `Bool`.
* `exit(1)` (the fatal bounds failure) is modelled by returning `none` from
  the interpolation step, which then propagates through the whole run.
-/

namespace NanDemo

/-- Raster width in pixels: `#define WIDTH 800`. -/
def WIDTH : Int := 800

/-- Raster height in pixels: `#define HEIGHT 600`. -/
def HEIGHT : Int := 600

/-- Number of interpolation points: `#define NUM_INTERPOLATION_POINTS 20000`. -/
def NUM_INTERPOLATION_POINTS : Nat := 20000

/-- Number of verified iterations: `#define NUM_VERIFIED_ITERATIONS 10`. -/
def NUM_VERIFIED_ITERATIONS : Nat := 10

/-- Threshold above which a sentinel-coded value is a missing value:
`#define MISSING_VALUE_THRESHOLD 10000`. -/
def MISSING_VALUE_THRESHOLD : Int := 10000

/-- Bit pattern of the first positive quiet NaN:
`const int32_t FIRST_QUIET_NAN = 0x7FC00000` (TestCase.cpp line 280). -/
def FIRST_QUIET_NAN : Int := 0x7FC00000

/-- Model of `readAllBytes` (TestCase.cpp lines 141-156).  The file system is
abstracted as `Option (List Nat)`: `none` when the file cannot be opened,
`some content` otherwise.  `new char[numBytes]` may fail (`allocOk = false`).
`stream.read(bytes, numBytes)` leaves the stream good if and only if the file
holds at least `numBytes` bytes, in which case the buffer holds the first
`numBytes` bytes; otherwise the buffer is freed and NULL is returned. -/
def readAllBytes (file : Option (List Nat)) (numBytes : Nat) (allocOk : Bool) :
    Option (List Nat) :=
  match file with
  | some content =>
    if allocOk then
      if numBytes ≤ content.length then some (content.take numBytes) else none
    else none
  | none => none

/-- The loop of `TestCase::success` (TestCase.cpp lines 228-237), with the
loop index `i` made explicit: `if (nodataMismatches[i] != 0) { if (i < 8)
return false; }`. -/
def successFrom : Nat → List Int → Bool
  | _, [] => true
  | i, v :: rest => if v ≠ 0 ∧ i < 8 then false else successFrom (i + 1) rest

/-- `TestCase::success` (TestCase.cpp lines 228-237).  The method is a member
of an object holding both statistics arrays, but reads only
`nodataMismatches`. -/
def success (errorStatistics : List ℚ) (nodataMismatches : List Int) : Bool :=
  successFrom 0 nodataMismatches

/-- `TestCase::resultEquals` (TestCase.cpp lines 242-251): element-wise exact
comparison of the `errorStatistics` and `nodataMismatches` arrays of the two
test cases, returning false on the first difference. -/
def resultEquals : List ℚ → List Int → List ℚ → List Int → Bool
  | e :: es, n :: ns, e2 :: es2, n2 :: ns2 =>
    if e ≠ e2 ∨ n ≠ n2 then false else resultEquals es ns es2 ns2
  | _, _, _, _ => true

/-- The fatal bounds test of both `computeAndCompare` methods
(TestCase.cpp lines 341 and 481):
`offset < 0 || offset >= (HEIGHT - 1) * WIDTH + (WIDTH - 1)`,
followed by `exit(1)` when it holds. -/
def fatalBranch (offset : Int) : Bool :=
  decide (offset < 0 ∨ (HEIGHT - 1) * WIDTH + (WIDTH - 1) ≤ offset)

/-- Reinterpretation of a 32-bit pattern as a signed 32-bit integer, as done
by `reinterpret_cast<int32_t*>(raster)` (TestCase.cpp line 375). -/
def toSigned (b : Nat) : Int :=
  if b < 2 ^ 31 then (b : Int) else (b : Int) - 2 ^ 32

/-- Bit pattern of the float `100.0f`.  By the monotonicity of the IEEE 754
encoding on each sign, the finite floats in `[-100, 100]` are exactly the
patterns whose low 31 bits are at most this value. -/
def MAX_VALID_BITS : Nat := 0x42C80000

/-- A 32-bit pattern encodes a finite float value in `[-100, 100]` (the range
of valid raster samples per the data files). -/
def ValidBits (b : Nat) : Prop := b < 2 ^ 32 ∧ b % 2 ^ 31 ≤ MAX_VALID_BITS

/-- `combine` step of `TestNaN::computeAndCompare` (TestCase.cpp lines
376-379): the maximum of the four corner patterns viewed as signed 32-bit
integers. -/
def combine (b00 b01 b10 b11 : Nat) : Int :=
  max (max (toSigned b00) (toSigned b01)) (max (toSigned b10) (toSigned b11))

/-- Specification of one corner pattern in the NaN variant: `none` means a
valid (finite, in-range) sample, `some k` means the quiet NaN
`FIRST_QUIET_NAN + k` for reason index `k`. -/
def CornerSpec (b : Nat) (o : Option Nat) : Prop :=
  match o with
  | none => ValidBits b
  | some k => k < 4 ∧ b = 0x7FC00000 + k

/-- Sentinel reason constant `UNKNOWN` of `TestNodata` (TestCase.cpp line 433). -/
def TestNodata.UNKNOWN : ℚ := 10000

/-- Sentinel reason constant `CLOUD` of `TestNodata` (TestCase.cpp line 434). -/
def TestNodata.CLOUD : ℚ := 10001

/-- Sentinel reason constant `LAND` of `TestNodata` (TestCase.cpp line 435). -/
def TestNodata.LAND : ℚ := 10002

/-- Sentinel reason constant `NO_PASS` of `TestNodata` (TestCase.cpp line 436). -/
def TestNodata.NO_PASS : ℚ := 10003

/-- Sentinel value for reason index `k` (0 = UNKNOWN .. 3 = NO_PASS). -/
def sentinelReason (k : Nat) : ℚ :=
  [TestNodata.UNKNOWN, TestNodata.CLOUD, TestNodata.LAND, TestNodata.NO_PASS].getD k 0

/-- Conversion of a recovered NaN pattern to the sentinel scale used by the
expected-results file (TestCase.cpp line 386):
`double nodata = (missingValueReason - FIRST_QUIET_NAN) + MISSING_VALUE_THRESHOLD;`
the `int` arithmetic and the `int` to `double` conversion are exact. -/
def nanToNodata (missingValueReason : Int) : ℚ :=
  ((missingValueReason - FIRST_QUIET_NAN) + MISSING_VALUE_THRESHOLD : Int)

/-- Signed-integer view invariant for one corner: a valid pattern reads as at
most `MAX_VALID_BITS`, a reason-`k` NaN pattern reads as exactly
`FIRST_QUIET_NAN + k`. -/
def SBr (s : Int) (o : Option Nat) : Prop :=
  match o with
  | none => s ≤ (MAX_VALID_BITS : Int)
  | some k => k < 4 ∧ s = FIRST_QUIET_NAN + k

/-- Sentinel-value view invariant for one corner: a valid sample is below the
missing-value threshold, a reason-`k` sentinel equals `10000 + k`. -/
def WBr (w : ℚ) (o : Option Nat) : Prop :=
  match o with
  | none => w < 10000
  | some k => k < 4 ∧ w = 10000 + (k : ℚ)

/-- Maximum of two optional reason indices: the dominant reason of two
corners, `none` when both corners are valid. -/
def omax : Option Nat → Option Nat → Option Nat
  | none, o => o
  | some k, none => some k
  | some k, some l => some (max k l)

lemma toSigned_cornerSpec {b : Nat} {o : Option Nat} (h : CornerSpec b o) :
    SBr (toSigned b) o := by
  cases o with
  | none =>
    obtain ⟨h1, h2⟩ := h
    simp only [SBr, toSigned, MAX_VALID_BITS] at *
    split <;> omega
  | some k =>
    obtain ⟨h1, h2⟩ := h
    subst h2
    simp only [SBr, toSigned, FIRST_QUIET_NAN]
    refine ⟨h1, ?_⟩
    split <;> push_cast <;> omega

lemma SBr_max {s1 s2 : Int} {o1 o2 : Option Nat} (h1 : SBr s1 o1) (h2 : SBr s2 o2) :
    SBr (max s1 s2) (omax o1 o2) := by
  cases o1 with
  | none =>
    have h1v : s1 ≤ (MAX_VALID_BITS : Int) := h1
    cases o2 with
    | none => exact max_le h1v h2
    | some l =>
      obtain ⟨hl, hs⟩ := h2
      refine ⟨hl, ?_⟩
      rw [max_eq_right (by simp only [MAX_VALID_BITS, FIRST_QUIET_NAN] at *; omega)]
      exact hs
  | some k =>
    obtain ⟨hk, hsk⟩ := h1
    cases o2 with
    | none =>
      have h2v : s2 ≤ (MAX_VALID_BITS : Int) := h2
      refine ⟨hk, ?_⟩
      rw [max_eq_left (by simp only [MAX_VALID_BITS, FIRST_QUIET_NAN] at *; omega)]
      exact hsk
    | some l =>
      obtain ⟨hl, hsl⟩ := h2
      refine ⟨by omega, ?_⟩
      subst hsk
      subst hsl
      rcases le_total k l with h | h
      · rw [max_eq_right (add_le_add_left (by exact_mod_cast h) FIRST_QUIET_NAN),
          max_eq_right h]
      · rw [max_eq_left (add_le_add_left (by exact_mod_cast h) FIRST_QUIET_NAN),
          max_eq_left h]

lemma WBr_max {w1 w2 : ℚ} {o1 o2 : Option Nat} (h1 : WBr w1 o1) (h2 : WBr w2 o2) :
    WBr (max w1 w2) (omax o1 o2) := by
  cases o1 with
  | none =>
    have h1v : w1 < 10000 := h1
    cases o2 with
    | none => exact max_lt h1v h2
    | some l =>
      obtain ⟨hl, hw⟩ := h2
      refine ⟨hl, ?_⟩
      rw [max_eq_right
        (by rw [hw]; have : (0 : ℚ) ≤ l := Nat.cast_nonneg l; linarith)]
      exact hw
  | some k =>
    obtain ⟨hk, hwk⟩ := h1
    cases o2 with
    | none =>
      have h2v : w2 < 10000 := h2
      refine ⟨hk, ?_⟩
      rw [max_eq_left
        (by rw [hwk]; have : (0 : ℚ) ≤ k := Nat.cast_nonneg k; linarith)]
      exact hwk
    | some l =>
      obtain ⟨hl, hwl⟩ := h2
      refine ⟨by omega, ?_⟩
      subst hwk
      subst hwl
      rcases le_total k l with h | h
      · rw [max_eq_right (add_le_add_left (by exact_mod_cast h) 10000),
          max_eq_right h]
      · rw [max_eq_left (add_le_add_left (by exact_mod_cast h) 10000),
          max_eq_left h]

lemma omax_eq_none {o1 o2 : Option Nat} :
    omax o1 o2 = none ↔ o1 = none ∧ o2 = none := by
  cases o1 <;> cases o2 <;> simp [omax]

lemma omax_spec {o1 o2 : Option Nat} {K : Nat} (h : omax o1 o2 = some K) :
    (o1 = some K ∨ o2 = some K) ∧ ∀ j, (o1 = some j ∨ o2 = some j) → j ≤ K := by
  cases o1 with
  | none =>
    cases o2 with
    | none => simp [omax] at h
    | some l =>
      simp only [omax, Option.some.injEq] at h
      subst h
      exact ⟨Or.inr rfl, by intro j hj; rcases hj with hj | hj <;> simp_all⟩
  | some k =>
    cases o2 with
    | none =>
      simp only [omax, Option.some.injEq] at h
      subst h
      exact ⟨Or.inl rfl, by intro j hj; rcases hj with hj | hj <;> simp_all⟩
    | some l =>
      simp only [omax, Option.some.injEq] at h
      constructor
      · simp only [Option.some.injEq]
        omega
      · intro j hj
        rcases hj with hj | hj <;> simp only [Option.some.injEq] at hj <;> omega

lemma le_omax_left {o1 o2 : Option Nat} {j : Nat} (h : o1 = some j) :
    ∃ j2, omax o1 o2 = some j2 ∧ j ≤ j2 := by
  subst h
  cases o2 with
  | none => exact ⟨j, rfl, le_refl j⟩
  | some l => exact ⟨max j l, rfl, le_max_left j l⟩

lemma le_omax_right {o1 o2 : Option Nat} {j : Nat} (h : o2 = some j) :
    ∃ j2, omax o1 o2 = some j2 ∧ j ≤ j2 := by
  subst h
  cases o1 with
  | none => exact ⟨j, rfl, le_refl j⟩
  | some k => exact ⟨max k j, rfl, le_max_right k j⟩

lemma successFrom_eq_true_iff (m : List Int) :
    ∀ j, successFrom j m = true ↔ ∀ i, j + i < 8 → m.getD i 0 = 0 := by
  induction m with
  | nil => intro j; simp [successFrom]
  | cons v rest ih =>
    intro j
    simp only [successFrom]
    by_cases h : v ≠ 0 ∧ j < 8
    · rw [if_pos h]
      simp only [Bool.false_eq_true, false_iff, not_forall]
      exact ⟨0, by omega, by simpa using h.1⟩
    · rw [if_neg h, ih (j + 1)]
      constructor
      · intro hall i hi
        cases i with
        | zero =>
          simp only [List.getD_cons_zero]
          by_contra hv
          exact h ⟨hv, by omega⟩
        | succ i => simpa using hall i (by omega)
      · intro hall i hi
        have := hall (i + 1) (by omega)
        simpa using this

lemma resultEquals_iff (es1 : List ℚ) :
    ∀ (nm1 : List Int) (es2 : List ℚ) (nm2 : List Int),
      es2.length = es1.length → nm1.length = es1.length → nm2.length = es1.length →
      (resultEquals es1 nm1 es2 nm2 = true ↔
        ∀ i, i < es1.length →
          es1.getD i 0 = es2.getD i 0 ∧ nm1.getD i 0 = nm2.getD i 0) := by
  induction es1 with
  | nil =>
    intro nm1 es2 nm2 h1 h2 h3
    simp only [List.length_nil, List.length_eq_zero] at h1 h2 h3
    subst h1
    subst h2
    subst h3
    simp [resultEquals]
  | cons e es ih =>
    intro nm1 es2 nm2 h1 h2 h3
    cases nm1 with
    | nil => simp at h2
    | cons n ns =>
      cases es2 with
      | nil => simp at h1
      | cons e2 es2t =>
        cases nm2 with
        | nil => simp at h3
        | cons n2 ns2 =>
          simp only [resultEquals]
          by_cases hc : e ≠ e2 ∨ n ≠ n2
          · rw [if_pos hc]
            simp only [Bool.false_eq_true, false_iff, not_forall]
            refine ⟨0, by simp, ?_⟩
            simp only [List.getD_cons_zero]
            tauto
          · rw [if_neg hc]
            push_neg at hc
            rw [ih ns es2t ns2 (by simpa using h1) (by simpa using h2)
              (by simpa using h3)]
            constructor
            · intro hall i hi
              cases i with
              | zero => simp [hc.1, hc.2]
              | succ i =>
                have := hall i (by simpa using hi)
                simpa using this
            · intro hall i hi
              have := hall (i + 1) (by simpa using hi)
              simpa using this

/-- C5: `TestCase::success` returns true iff `nodataMismatches[i] = 0` for
every iteration index `i < 8`; the entries at indices 8 and 9 and the whole
`errorStatistics` array have no effect on the result. -/
theorem successIff (es : List ℚ) (m : List Int)
    (hm : m.length = NUM_VERIFIED_ITERATIONS) :
    (success es m = true ↔ ∀ i, i < 8 → m.getD i 0 = 0)
    ∧ (∀ es2 : List ℚ, success es2 m = success es m) := by
  refine ⟨?_, fun _ => rfl⟩
  rw [success, successFrom_eq_true_iff]
  constructor
  · intro hall i hi
    exact hall i (by omega)
  · intro hall i hi
    exact hall i (by omega)

/-- Closed instance of `successIff`: a mismatch at iteration 9 only is still
a success. -/
theorem successIff_witness :
    success [] [0, 0, 0, 0, 0, 0, 0, 0, 0, 5] = true :=
  (successIff [] [0, 0, 0, 0, 0, 0, 0, 0, 0, 5] (by decide)).1.mpr (by decide)

/-- C6: `TestCase::resultEquals` returns true iff, for every iteration index
below `NUM_VERIFIED_ITERATIONS`, the `errorStatistics` entry and the
`nodataMismatches` entry of the two test cases are exactly equal (exact
value equality, no tolerance). -/
theorem resultEqualsIff (es1 es2 : List ℚ) (nm1 nm2 : List Int)
    (h1 : es1.length = NUM_VERIFIED_ITERATIONS)
    (h2 : es2.length = NUM_VERIFIED_ITERATIONS)
    (h3 : nm1.length = NUM_VERIFIED_ITERATIONS)
    (h4 : nm2.length = NUM_VERIFIED_ITERATIONS) :
    resultEquals es1 nm1 es2 nm2 = true ↔
      ∀ i, i < NUM_VERIFIED_ITERATIONS →
        es1.getD i 0 = es2.getD i 0 ∧ nm1.getD i 0 = nm2.getD i 0 := by
  rw [resultEquals_iff es1 nm1 es2 nm2 (by omega) (by omega) (by omega), h1]

/-- Closed instance of `resultEqualsIff` on two equal statistic sequences. -/
theorem resultEqualsIff_witness :
    resultEquals (List.replicate 10 (1 : ℚ)) (List.replicate 10 (2 : Int))
      (List.replicate 10 (1 : ℚ)) (List.replicate 10 (2 : Int)) = true :=
  (resultEqualsIff (List.replicate 10 (1 : ℚ)) (List.replicate 10 (1 : ℚ))
    (List.replicate 10 (2 : Int)) (List.replicate 10 (2 : Int))
    (by simp [NUM_VERIFIED_ITERATIONS]) (by simp [NUM_VERIFIED_ITERATIONS])
    (by simp [NUM_VERIFIED_ITERATIONS]) (by simp [NUM_VERIFIED_ITERATIONS])).mpr
    (by intro i hi; exact ⟨rfl, rfl⟩)

/-- C8: the buffer loader returns no buffer iff the file is absent, the file
holds fewer than `numBytes` bytes, or allocation fails; and a returned buffer
always holds exactly `numBytes` bytes, so a short read is never surfaced as a
partial result. -/
theorem readAllBytesNoneIff (file : Option (List Nat)) (numBytes : Nat)
    (allocOk : Bool) :
    (readAllBytes file numBytes allocOk = none ↔
      file = none ∨ (∃ c, file = some c ∧ c.length < numBytes) ∨ allocOk = false)
    ∧ ∀ bs, readAllBytes file numBytes allocOk = some bs → bs.length = numBytes := by
  cases file with
  | none => simp [readAllBytes]
  | some c =>
    cases allocOk with
    | false => simp [readAllBytes]
    | true =>
      have hval : readAllBytes (some c) numBytes true
          = if numBytes ≤ c.length then some (c.take numBytes) else none := rfl
      by_cases h : numBytes ≤ c.length
      · rw [hval, if_pos h]
        constructor
        · constructor
          · intro hnone
            exact absurd hnone (by simp)
          · rintro (hf | ⟨c2, hc2, hlen⟩ | hf)
            · exact absurd hf (by simp)
            · rw [Option.some.injEq] at hc2
              subst hc2
              exact absurd hlen (by omega)
            · exact absurd hf (by simp)
        · intro bs hbs
          rw [Option.some.injEq] at hbs
          rw [← hbs, List.length_take]
          omega
      · rw [hval, if_neg h]
        constructor
        · constructor
          · intro _
            exact Or.inr (Or.inl ⟨c, rfl, by omega⟩)
          · intro _
            rfl
        · intro bs hbs
          exact absurd hbs (by simp)

/-- Closed instance of `readAllBytesNoneIff`: a file of 3 bytes cannot serve
a 5-byte request. -/
theorem readAllBytesNoneIff_witness :
    readAllBytes (some [5, 6, 7]) 5 true = none :=
  (readAllBytesNoneIff (some [5, 6, 7]) 5 true).1.mpr
    (Or.inr (Or.inl ⟨[5, 6, 7], rfl, by decide⟩))

/-- C2 counterexample: at base offset 479200 (reachable from coordinates
with `xb = 0`, `yb = 599`) the fatal branch is not taken, yet the corner
index `offset + WIDTH = 480000` lies outside the claimed legal range
`[0, (HEIGHT-1)*WIDTH + (WIDTH-1)] = [0, 479999]` (outside the raster):
the coded check bounds only the base offset, not the 2x2 neighborhood. -/
theorem fatalBranchCounterexample :
    fatalBranch 479200 = false ∧
      ¬ ((479200 : Int) + WIDTH ≤ (HEIGHT - 1) * WIDTH + (WIDTH - 1)) := by
  constructor
  · decide
  · decide

/-- C2 amended: the fatal branch is taken iff the base offset lies outside
`[0, (HEIGHT-1)*WIDTH + (WIDTH-1) - 1]` (the coded comparison is `>=`, so
the right endpoint of the claim's closed interval is already fatal).  When
the fatal branch is not taken, `offset` and `offset + 1` do lie inside the
raster `[0, WIDTH*HEIGHT - 1]`, but the bottom-row corners `offset + WIDTH`
and `offset + WIDTH + 1` lie inside it only when additionally
`offset ≤ (HEIGHT-2)*WIDTH + (WIDTH-2)`. -/
theorem fatalBranchAmended (offset : Int) :
    (fatalBranch offset = false ↔
      0 ≤ offset ∧ offset ≤ (HEIGHT - 1) * WIDTH + (WIDTH - 1) - 1)
    ∧ (fatalBranch offset = false →
        (0 ≤ offset ∧ offset + 1 ≤ WIDTH * HEIGHT - 1)
        ∧ (offset + WIDTH + 1 ≤ WIDTH * HEIGHT - 1 ↔
            offset ≤ (HEIGHT - 2) * WIDTH + (WIDTH - 2))) := by
  simp only [fatalBranch, WIDTH, HEIGHT, decide_eq_false_iff_not, not_or, not_lt,
    not_le]
  omega

/-- Closed instance of `fatalBranchAmended` at base offset 0. -/
theorem fatalBranchAmended_witness :
    ((0 : Int) ≤ 0 ∧ (0 : Int) + 1 ≤ WIDTH * HEIGHT - 1)
    ∧ ((0 : Int) + WIDTH + 1 ≤ WIDTH * HEIGHT - 1 ↔
        (0 : Int) ≤ (HEIGHT - 2) * WIDTH + (WIDTH - 2)) :=
  (fatalBranchAmended 0).2 (by decide)

/-- C4: under both codecs, every reason index 0..3 maps onto the
expected-results scale exactly as `MISSING_VALUE_THRESHOLD + reasonIndex`:
the NaN codec via `nanToNodata` applied to the pattern
`FIRST_QUIET_NAN + reasonIndex`, the sentinel codec via its reason constant
converted to double. -/
theorem codecMapsToThreshold (k : Nat) (hk : k < 4) :
    nanToNodata (FIRST_QUIET_NAN + k) = (MISSING_VALUE_THRESHOLD : ℚ) + k
    ∧ sentinelReason k = (MISSING_VALUE_THRESHOLD : ℚ) + k := by
  interval_cases k <;>
    exact ⟨by norm_num [nanToNodata, FIRST_QUIET_NAN, MISSING_VALUE_THRESHOLD],
      by norm_num [sentinelReason, MISSING_VALUE_THRESHOLD, TestNodata.UNKNOWN,
        TestNodata.CLOUD, TestNodata.LAND, TestNodata.NO_PASS]⟩

/-- Closed instance of `codecMapsToThreshold` at reason index 3 (NO_PASS). -/
theorem codecMapsToThreshold_witness :
    nanToNodata (FIRST_QUIET_NAN + 3) = (MISSING_VALUE_THRESHOLD : ℚ) + 3
    ∧ sentinelReason 3 = (MISSING_VALUE_THRESHOLD : ℚ) + 3 :=
  codecMapsToThreshold 3 (by norm_num)

/-- C3: when each of the four corner patterns is either a valid in-range
sample or the quiet NaN `FIRST_QUIET_NAN + k` with reason index `k < 4`
(sign bit clear), and at least one corner is such a NaN, the signed 32-bit
integer maximum `combine` recovers exactly `FIRST_QUIET_NAN + kmax`, where
`kmax` is the largest reason index among the NaN corners. -/
theorem combineRecoversReason (b00 b01 b10 b11 : Nat) (o00 o01 o10 o11 : Option Nat)
    (h00 : CornerSpec b00 o00) (h01 : CornerSpec b01 o01)
    (h10 : CornerSpec b10 o10) (h11 : CornerSpec b11 o11) (kmax : Nat)
    (hmem : kmax ∈ ([o00, o01, o10, o11].filterMap id))
    (hub : ∀ k ∈ ([o00, o01, o10, o11].filterMap id), k ≤ kmax) :
    combine b00 b01 b10 b11 = FIRST_QUIET_NAN + kmax := by
  have hS : SBr (combine b00 b01 b10 b11) (omax (omax o00 o01) (omax o10 o11)) :=
    SBr_max (SBr_max (toSigned_cornerSpec h00) (toSigned_cornerSpec h01))
      (SBr_max (toSigned_cornerSpec h10) (toSigned_cornerSpec h11))
  simp only [List.mem_filterMap, id_eq, List.mem_cons, List.not_mem_nil,
    or_false] at hmem
  obtain ⟨o, ho_mem, ho⟩ := hmem
  cases hO : omax (omax o00 o01) (omax o10 o11) with
  | none =>
    exfalso
    rw [omax_eq_none] at hO
    obtain ⟨hO1, hO2⟩ := hO
    rw [omax_eq_none] at hO1 hO2
    rcases ho_mem with h | h | h | h <;> subst h <;> simp_all
  | some K =>
    rw [hO] at hS
    obtain ⟨hK4, hKeq⟩ := hS
    have hKkmax : K ≤ kmax := by
      obtain ⟨hKmem, _⟩ := omax_spec hO
      have : o00 = some K ∨ o01 = some K ∨ o10 = some K ∨ o11 = some K := by
        rcases hKmem with h | h
        · obtain ⟨h2, _⟩ := omax_spec h
          tauto
        · obtain ⟨h2, _⟩ := omax_spec h
          tauto
      apply hub
      simp only [List.mem_filterMap, id_eq, List.mem_cons, List.not_mem_nil,
        or_false]
      rcases this with h | h | h | h
      · exact ⟨o00, Or.inl rfl, h⟩
      · exact ⟨o01, Or.inr (Or.inl rfl), h⟩
      · exact ⟨o10, Or.inr (Or.inr (Or.inl rfl)), h⟩
      · exact ⟨o11, Or.inr (Or.inr (Or.inr rfl)), h⟩
    have hkmaxK : kmax ≤ K := by
      have step : ∃ j2, omax (omax o00 o01) (omax o10 o11) = some j2 ∧ kmax ≤ j2 := by
        rcases ho_mem with h | h | h | h <;> rw [h] at ho
        · obtain ⟨j2, hj2, hle⟩ := @le_omax_left o00 o01 kmax ho
          obtain ⟨j3, hj3, hle2⟩ := @le_omax_left (omax o00 o01) (omax o10 o11) j2 hj2
          exact ⟨j3, hj3, le_trans hle hle2⟩
        · obtain ⟨j2, hj2, hle⟩ := @le_omax_right o00 o01 kmax ho
          obtain ⟨j3, hj3, hle2⟩ := @le_omax_left (omax o00 o01) (omax o10 o11) j2 hj2
          exact ⟨j3, hj3, le_trans hle hle2⟩
        · obtain ⟨j2, hj2, hle⟩ := @le_omax_left o10 o11 kmax ho
          obtain ⟨j3, hj3, hle2⟩ := @le_omax_right (omax o00 o01) (omax o10 o11) j2 hj2
          exact ⟨j3, hj3, le_trans hle hle2⟩
        · obtain ⟨j2, hj2, hle⟩ := @le_omax_right o10 o11 kmax ho
          obtain ⟨j3, hj3, hle2⟩ := @le_omax_right (omax o00 o01) (omax o10 o11) j2 hj2
          exact ⟨j3, hj3, le_trans hle hle2⟩
      obtain ⟨j3, hj3, hle⟩ := step
      rw [hO] at hj3
      simp only [Option.some.injEq] at hj3
      omega
    have : K = kmax := le_antisymm hKkmax hkmaxK
    rw [hKeq, this]

/-- Closed instance of `combineRecoversReason`: one LAND NaN corner
(pattern `FIRST_QUIET_NAN + 2`) among three valid corners holding `1.0f`
(pattern 0x3F800000). -/
theorem combineRecoversReason_witness :
    combine 0x7FC00002 0x3F800000 0x3F800000 0x3F800000 = FIRST_QUIET_NAN + 2 :=
  combineRecoversReason 0x7FC00002 0x3F800000 0x3F800000 0x3F800000
    (some 2) none none none (by exact ⟨by norm_num, by norm_num⟩)
    (by constructor <;> decide) (by constructor <;> decide)
    (by constructor <;> decide) 2 (by decide) (by decide)

/-- One cell of the logical raster: either a valid sample, carried with its
value and its 32-bit float pattern, or a missing marker with reason index
`k`.  The NaN codec stores a valid sample as its own pattern and a missing
marker as the quiet NaN `FIRST_QUIET_NAN + k`; the sentinel codec stores a
valid sample as its own value and a missing marker as the float
`10000 + k`. -/
inductive Cell where
  | valid (v : ℚ) (bits : Nat)
  | missing (k : Nat)

/-- Well-formedness of a cell per the data model: valid samples are finite
floats in `[-100, 100]` (both the value and the pattern are in range),
missing markers use reason indices 0..3. -/
def WfCell : Cell → Prop
  | .valid v bits => ValidBits bits ∧ |v| ≤ 100
  | .missing k => k < 4

/-- 32-bit pattern of a cell as stored in the NaN-variant raster file. -/
def bitsOf : Cell → Nat
  | .valid _ bits => bits
  | .missing k => 0x7FC00000 + k

/-- Float value of a cell as stored in the sentinel-variant raster file. -/
def sentinelOf : Cell → ℚ
  | .valid v _ => v
  | .missing k => 10000 + (k : ℚ)

/-- Value of a NaN-variant cell when promoted to `double`: `none` is NaN. -/
def toD : Cell → Option ℚ
  | .valid v _ => some v
  | .missing _ => none

/-- Reason tag of a cell: `none` for a valid sample. -/
def tag : Cell → Option Nat
  | .valid _ _ => none
  | .missing k => some k

/-- Subtraction on `double` values with NaN (`none`) propagation. -/
def subD : Option ℚ → Option ℚ → Option ℚ
  | some a, some b => some (a - b)
  | _, _ => none

/-- `std::fma(a, b, c)` on `double` values with NaN propagation; the middle
argument is always a finite fraction at the call sites.  The fused multiply
add performs a single rounding, which the exact rational model realizes as
`a * b + c`. -/
def fmaD : Option ℚ → ℚ → Option ℚ → Option ℚ
  | some a, b, some c => some (a * b + c)
  | _, _, _ => none

/-- `fmod` on rationals for the call sites of TestCase.cpp (lines 399-400 and
529-530), whose dividend `abs(...)` is nonnegative, where C's truncation
toward zero agrees with the floor: `fmod(a, m) = a - m * floor(a / m)`. -/
def fmodQ (a m : ℚ) : ℚ := a - m * ⌊a / m⌋

/-- Linear base offset `WIDTH * ((int) floor(y)) + ((int) floor(x))`
(TestCase.cpp lines 334-340 and 474-480). -/
def offsetOf (x y : ℚ) : Int := WIDTH * ⌊y⌋ + ⌊x⌋

/-- The unconditional bilinear interpolation of `TestNaN::computeAndCompare`
(TestCase.cpp lines 356-360), on the four corners at the base offset:
`v0 = fma(v01 - v00, xf, v00)`, `v1 = fma(v11 - v10, xf, v10)`,
`result = fma(v1 - v0, yf, v0)`, with NaN propagating as `none`. -/
def nanInterp (raster : Int → Cell) (x y : ℚ) : Option ℚ :=
  let offset := offsetOf x y
  let xf : ℚ := x - (⌊x⌋ : ℚ)
  let yf : ℚ := y - (⌊y⌋ : ℚ)
  let v0 := fmaD (subD (toD (raster (offset + 1))) (toD (raster offset))) xf
    (toD (raster offset))
  let v1 := fmaD (subD (toD (raster (offset + WIDTH + 1)))
    (toD (raster (offset + WIDTH)))) xf (toD (raster (offset + WIDTH)))
  fmaD (subD v1 v0) yf v0

/-- The signed-integer maximum over the four corner patterns of
`TestNaN::computeAndCompare` (TestCase.cpp lines 374-379): the corners are
`topRow`, `topRow + 1`, `offset`, `offset + 1` where `topRow` is the base
offset and `offset` the base offset plus `WIDTH`. -/
def nanCombine (raster : Int → Cell) (x y : ℚ) : Int :=
  combine (bitsOf (raster (offsetOf x y))) (bitsOf (raster (offsetOf x y + 1)))
    (bitsOf (raster (offsetOf x y + WIDTH)))
    (bitsOf (raster (offsetOf x y + WIDTH + 1)))

/-- The sentinel `missingValueReason` of `TestNodata::computeAndCompare`
(TestCase.cpp lines 505-507): the float maximum over the four corners. -/
def sentinelMVR (raster : Int → ℚ) (x y : ℚ) : ℚ :=
  max (max (raster (offsetOf x y)) (raster (offsetOf x y + 1)))
    (max (raster (offsetOf x y + WIDTH)) (raster (offsetOf x y + WIDTH + 1)))

/-- The guarded bilinear interpolation of `TestNodata::computeAndCompare`
(TestCase.cpp lines 517-521), computed only when no corner is missing. -/
def sentinelInterp (raster : Int → ℚ) (x y : ℚ) : ℚ :=
  let offset := offsetOf x y
  let xf : ℚ := x - (⌊x⌋ : ℚ)
  let yf : ℚ := y - (⌊y⌋ : ℚ)
  let v0 := (raster (offset + 1) - raster offset) * xf + raster offset
  let v1 := (raster (offset + WIDTH + 1) - raster (offset + WIDTH)) * xf
    + raster (offset + WIDTH)
  (v1 - v0) * yf + v0

/-- Outcome of processing one interpolation point: the rewritten coordinate
pair, the running maximum-error statistic and the running mismatch count. -/
structure PointOut where
  x : ℚ
  y : ℚ
  stats : ℚ
  mm : Int
deriving DecidableEq

/-- Body of the inner loop of `TestNaN::computeAndCompare` (TestCase.cpp
lines 330-401) for one point: bounds check (with `exit(1)` modelled as
`none`), unconditional interpolation, NaN check after the fact, statistics
update and the chaotic coordinate feedback. -/
def nanPoint (raster : Int → Cell) (x y expected stats : ℚ) (mm : Int) :
    Option PointOut :=
  if fatalBranch (offsetOf x y) then none
  else
    match nanInterp raster x y with
    | none =>
      let nodata := nanToNodata (nanCombine raster x y)
      some ⟨fmodQ |x + 1| ((WIDTH : ℚ) - 1), fmodQ |y + 1| ((HEIGHT : ℚ) - 1),
        stats, if nodata ≠ expected then mm + 1 else mm⟩
    | some result =>
      if (MISSING_VALUE_THRESHOLD : ℚ) ≤ expected then
        some ⟨fmodQ |x + result| ((WIDTH : ℚ) - 1),
          fmodQ |y + result| ((HEIGHT : ℚ) - 1), stats, mm + 1⟩
      else
        some ⟨fmodQ |x + result| ((WIDTH : ℚ) - 1),
          fmodQ |y + result| ((HEIGHT : ℚ) - 1),
          max stats |result - expected|, mm⟩

/-- Body of the inner loop of `TestNodata::computeAndCompare` (TestCase.cpp
lines 470-530) for one point: bounds check, missing-value check before the
interpolation, statistics update and the chaotic coordinate feedback. -/
def sentinelPoint (raster : Int → ℚ) (x y expected stats : ℚ) (mm : Int) :
    Option PointOut :=
  if fatalBranch (offsetOf x y) then none
  else
    if (MISSING_VALUE_THRESHOLD : ℚ) ≤ sentinelMVR raster x y then
      some ⟨fmodQ |x + 1| ((WIDTH : ℚ) - 1), fmodQ |y + 1| ((HEIGHT : ℚ) - 1),
        stats, if sentinelMVR raster x y ≠ expected then mm + 1 else mm⟩
    else
      let result := sentinelInterp raster x y
      if (MISSING_VALUE_THRESHOLD : ℚ) ≤ expected then
        some ⟨fmodQ |x + result| ((WIDTH : ℚ) - 1),
          fmodQ |y + result| ((HEIGHT : ℚ) - 1), stats, mm + 1⟩
      else
        some ⟨fmodQ |x + result| ((WIDTH : ℚ) - 1),
          fmodQ |y + result| ((HEIGHT : ℚ) - 1),
          max stats |result - expected|, mm⟩

/-- One verification iteration of `TestNaN::computeAndCompare` (the inner
`for i` loop): the list pairs each current coordinate pair with the expected
result at the sequential cursor; coordinates are rewritten in place and the
running statistic and mismatch count are threaded through.  `none` models
`exit(1)`. -/
def nanIter (raster : Int → Cell) :
    List ((ℚ × ℚ) × ℚ) → ℚ → Int → Option (List (ℚ × ℚ) × ℚ × Int)
  | [], stats, mm => some ([], stats, mm)
  | ((x, y), e) :: rest, stats, mm =>
    match nanPoint raster x y e stats mm with
    | none => none
    | some o =>
      match nanIter raster rest o.stats o.mm with
      | none => none
      | some (cs, s, m) => some ((o.x, o.y) :: cs, s, m)

/-- One verification iteration of `TestNodata::computeAndCompare`. -/
def sentinelIter (raster : Int → ℚ) :
    List ((ℚ × ℚ) × ℚ) → ℚ → Int → Option (List (ℚ × ℚ) × ℚ × Int)
  | [], stats, mm => some ([], stats, mm)
  | ((x, y), e) :: rest, stats, mm =>
    match sentinelPoint raster x y e stats mm with
    | none => none
    | some o =>
      match sentinelIter raster rest o.stats o.mm with
      | none => none
      | some (cs, s, m) => some ((o.x, o.y) :: cs, s, m)

/-- The outer iteration loop of `TestNaN::computeAndCompare` (TestCase.cpp
lines 322-404): `ess` is the expected-results buffer, one list per verified
iteration; `e0s` and `m0s` are the `errorStatistics` and `nodataMismatches`
arrays at entry (all zero at construction), read as each iteration's
starting accumulator values.  Returns the final contents of the two
statistics arrays, `none` when `exit(1)` was reached. -/
def nanRun (raster : Int → Cell) :
    List (ℚ × ℚ) → List (List ℚ) → List ℚ → List Int →
      Option (List ℚ × List Int)
  | _, [], _, _ => some ([], [])
  | coords, es :: rest, e0s, m0s =>
    match nanIter raster (coords.zip es) (e0s.headD 0) (m0s.headD 0) with
    | none => none
    | some (coords2, s, m) =>
      match nanRun raster coords2 rest e0s.tail m0s.tail with
      | none => none
      | some (ss, ms) => some (s :: ss, m :: ms)

/-- The outer iteration loop of `TestNodata::computeAndCompare`. -/
def sentinelRun (raster : Int → ℚ) :
    List (ℚ × ℚ) → List (List ℚ) → List ℚ → List Int →
      Option (List ℚ × List Int)
  | _, [], _, _ => some ([], [])
  | coords, es :: rest, e0s, m0s =>
    match sentinelIter raster (coords.zip es) (e0s.headD 0) (m0s.headD 0) with
    | none => none
    | some (coords2, s, m) =>
      match sentinelRun raster coords2 rest e0s.tail m0s.tail with
      | none => none
      | some (ss, ms) => some (s :: ss, m :: ms)

/-- `TestNaN::computeAndCompare` (TestCase.cpp lines 315-411) including the
load guards: when the raster, the coordinates or the expected-results buffer
fails to load, nothing runs and the statistics arrays keep the values they
had (all zero from the constructor). -/
def nanComputeAndCompare (raster : Option (Int → Cell))
    (coords : Option (List (ℚ × ℚ))) (expectedResults : Option (List (List ℚ)))
    (errorStatistics : List ℚ) (nodataMismatches : List Int) :
    Option (List ℚ × List Int) :=
  match raster with
  | none => some (errorStatistics, nodataMismatches)
  | some r =>
    match coords with
    | none => some (errorStatistics, nodataMismatches)
    | some cs =>
      match expectedResults with
      | none => some (errorStatistics, nodataMismatches)
      | some ess => nanRun r cs ess errorStatistics nodataMismatches

/-- `TestNodata::computeAndCompare` (TestCase.cpp lines 455-541) including
the load guards. -/
def sentinelComputeAndCompare (raster : Option (Int → ℚ))
    (coords : Option (List (ℚ × ℚ))) (expectedResults : Option (List (List ℚ)))
    (errorStatistics : List ℚ) (nodataMismatches : List Int) :
    Option (List ℚ × List Int) :=
  match raster with
  | none => some (errorStatistics, nodataMismatches)
  | some r =>
    match coords with
    | none => some (errorStatistics, nodataMismatches)
    | some cs =>
      match expectedResults with
      | none => some (errorStatistics, nodataMismatches)
      | some ess => sentinelRun r cs ess errorStatistics nodataMismatches

lemma cell_SBr {c : Cell} (h : WfCell c) : SBr (toSigned (bitsOf c)) (tag c) := by
  cases c with
  | valid v b => exact @toSigned_cornerSpec b none h.1
  | missing k => exact @toSigned_cornerSpec (0x7FC00000 + k) (some k) ⟨h, rfl⟩

lemma cell_WBr {c : Cell} (h : WfCell c) : WBr (sentinelOf c) (tag c) := by
  cases c with
  | valid v b =>
    have : v ≤ 100 := (abs_le.mp h.2).2
    show v < 10000
    linarith
  | missing k => exact ⟨h, rfl⟩

lemma tag_none_val {c : Cell} (h : tag c = none) :
    ∃ v, toD c = some v ∧ sentinelOf c = v := by
  cases c with
  | valid v b => exact ⟨v, rfl, rfl⟩
  | missing k => simp [tag] at h

lemma tag_some_toD {c : Cell} {k : Nat} (h : tag c = some k) : toD c = none := by
  cases c with
  | valid v b => simp [tag] at h
  | missing _ => rfl

lemma subD_none_left (b : Option ℚ) : subD none b = none := rfl

lemma subD_none_right (a : Option ℚ) : subD a none = none := by
  cases a <;> rfl

lemma fmaD_none_left (b : ℚ) (c : Option ℚ) : fmaD none b c = none := rfl

lemma fmaD_none_right (a : Option ℚ) (b : ℚ) : fmaD a b none = none := by
  cases a <;> rfl

lemma nanInterp_valid (raster : Int → Cell) (x y : ℚ) {v00 v01 v10 v11 : ℚ}
    (h00 : toD (raster (offsetOf x y)) = some v00)
    (h01 : toD (raster (offsetOf x y + 1)) = some v01)
    (h10 : toD (raster (offsetOf x y + WIDTH)) = some v10)
    (h11 : toD (raster (offsetOf x y + WIDTH + 1)) = some v11) :
    nanInterp raster x y =
      some ((((v11 - v10) * (x - (⌊x⌋ : ℚ)) + v10)
        - ((v01 - v00) * (x - (⌊x⌋ : ℚ)) + v00)) * (y - (⌊y⌋ : ℚ))
        + ((v01 - v00) * (x - (⌊x⌋ : ℚ)) + v00)) := by
  unfold nanInterp
  simp only [h00, h01, h10, h11, subD, fmaD]

lemma nanInterp_missing (raster : Int → Cell) (x y : ℚ)
    (hm : toD (raster (offsetOf x y)) = none
      ∨ toD (raster (offsetOf x y + 1)) = none
      ∨ toD (raster (offsetOf x y + WIDTH)) = none
      ∨ toD (raster (offsetOf x y + WIDTH + 1)) = none) :
    nanInterp raster x y = none := by
  unfold nanInterp
  rcases hm with h | h | h | h <;>
    simp only [h, subD_none_left, subD_none_right, fmaD_none_left, fmaD_none_right]

lemma point_equiv (raster : Int → Cell) (h : ∀ i, WfCell (raster i))
    (x y e stats : ℚ) (mm : Int) :
    sentinelPoint (fun i => sentinelOf (raster i)) x y e stats mm
      = nanPoint raster x y e stats mm := by
  have hW : WBr (sentinelMVR (fun i => sentinelOf (raster i)) x y)
      (omax (omax (tag (raster (offsetOf x y))) (tag (raster (offsetOf x y + 1))))
        (omax (tag (raster (offsetOf x y + WIDTH)))
          (tag (raster (offsetOf x y + WIDTH + 1))))) :=
    WBr_max (WBr_max (cell_WBr (h _)) (cell_WBr (h _)))
      (WBr_max (cell_WBr (h _)) (cell_WBr (h _)))
  have hS : SBr (nanCombine raster x y)
      (omax (omax (tag (raster (offsetOf x y))) (tag (raster (offsetOf x y + 1))))
        (omax (tag (raster (offsetOf x y + WIDTH)))
          (tag (raster (offsetOf x y + WIDTH + 1))))) :=
    SBr_max (SBr_max (cell_SBr (h _)) (cell_SBr (h _)))
      (SBr_max (cell_SBr (h _)) (cell_SBr (h _)))
  unfold sentinelPoint nanPoint
  by_cases hf : fatalBranch (offsetOf x y) = true
  · rw [if_pos hf, if_pos hf]
  · rw [if_neg hf, if_neg hf]
    cases hO : omax (omax (tag (raster (offsetOf x y)))
        (tag (raster (offsetOf x y + 1))))
        (omax (tag (raster (offsetOf x y + WIDTH)))
          (tag (raster (offsetOf x y + WIDTH + 1)))) with
    | none =>
      rw [hO] at hW
      have hWlt : sentinelMVR (fun i => sentinelOf (raster i)) x y < 10000 := hW
      rw [omax_eq_none] at hO
      obtain ⟨hO1, hO2⟩ := hO
      rw [omax_eq_none] at hO1 hO2
      obtain ⟨v00, hd00, hs00⟩ := tag_none_val hO1.1
      obtain ⟨v01, hd01, hs01⟩ := tag_none_val hO1.2
      obtain ⟨v10, hd10, hs10⟩ := tag_none_val hO2.1
      obtain ⟨v11, hd11, hs11⟩ := tag_none_val hO2.2
      rw [nanInterp_valid raster x y hd00 hd01 hd10 hd11]
      have hres : sentinelInterp (fun i => sentinelOf (raster i)) x y =
          (((v11 - v10) * (x - (⌊x⌋ : ℚ)) + v10)
            - ((v01 - v00) * (x - (⌊x⌋ : ℚ)) + v00)) * (y - (⌊y⌋ : ℚ))
            + ((v01 - v00) * (x - (⌊x⌋ : ℚ)) + v00) := by
        unfold sentinelInterp
        simp only [hs00, hs01, hs10, hs11]
      rw [if_neg (by
        rw [show (MISSING_VALUE_THRESHOLD : ℚ) = 10000 by
          norm_num [MISSING_VALUE_THRESHOLD]]
        linarith)]
      simp only [hres]
    | some K =>
      rw [hO] at hW hS
      obtain ⟨hK4, hWeq⟩ := hW
      obtain ⟨_, hSeq⟩ := hS
      have hnone : nanInterp raster x y = none := by
        obtain ⟨hmem, _⟩ := omax_spec hO
        rcases hmem with hm | hm
        · obtain ⟨hmem2, _⟩ := omax_spec hm
          rcases hmem2 with hm2 | hm2
          · exact nanInterp_missing _ _ _ (Or.inl (tag_some_toD hm2))
          · exact nanInterp_missing _ _ _ (Or.inr (Or.inl (tag_some_toD hm2)))
        · obtain ⟨hmem2, _⟩ := omax_spec hm
          rcases hmem2 with hm2 | hm2
          · exact nanInterp_missing _ _ _
              (Or.inr (Or.inr (Or.inl (tag_some_toD hm2))))
          · exact nanInterp_missing _ _ _
              (Or.inr (Or.inr (Or.inr (tag_some_toD hm2))))
      rw [hnone]
      have hmvr : nanToNodata (nanCombine raster x y)
          = sentinelMVR (fun i => sentinelOf (raster i)) x y := by
        rw [hSeq, hWeq]
        unfold nanToNodata
        push_cast [FIRST_QUIET_NAN, MISSING_VALUE_THRESHOLD]
        ring
      rw [if_pos (by
        rw [hWeq, show (MISSING_VALUE_THRESHOLD : ℚ) = 10000 by
          norm_num [MISSING_VALUE_THRESHOLD]]
        have : (0 : ℚ) ≤ (K : ℚ) := Nat.cast_nonneg K
        linarith)]
      simp only [hmvr]

lemma iter_equiv (raster : Int → Cell) (h : ∀ i, WfCell (raster i)) :
    ∀ (l : List ((ℚ × ℚ) × ℚ)) (stats : ℚ) (mm : Int),
      sentinelIter (fun i => sentinelOf (raster i)) l stats mm
        = nanIter raster l stats mm := by
  intro l
  induction l with
  | nil => intro stats mm; rfl
  | cons p rest ih =>
    obtain ⟨⟨x, y⟩, e⟩ := p
    intro stats mm
    simp only [sentinelIter, nanIter, point_equiv raster h]
    cases nanPoint raster x y e stats mm with
    | none => rfl
    | some o =>
      dsimp only
      rw [ih o.stats o.mm]

lemma run_equiv (raster : Int → Cell) (h : ∀ i, WfCell (raster i)) :
    ∀ (ess : List (List ℚ)) (coords : List (ℚ × ℚ)) (e0s : List ℚ)
      (m0s : List Int),
      sentinelRun (fun i => sentinelOf (raster i)) coords ess e0s m0s
        = nanRun raster coords ess e0s m0s := by
  intro ess
  induction ess with
  | nil => intro coords e0s m0s; rfl
  | cons es rest ih =>
    intro coords e0s m0s
    simp only [sentinelRun, nanRun, iter_equiv raster h]
    cases nanIter raster (coords.zip es) (e0s.headD 0) (m0s.headD 0) with
    | none => rfl
    | some out =>
      obtain ⟨coords2, s, m⟩ := out
      dsimp only
      rw [ih coords2 e0s.tail m0s.tail]

/-- C1: for identical logical input — one raster whose cells conform to the
data model, encoded for the NaN codec via the cell patterns and for the
sentinel codec via `sentinelOf`, together with the same coordinates,
expected results and initial statistics arrays — the NaN variant's
`computeAndCompare` and the sentinel variant's `computeAndCompare` produce
exactly the same `errorStatistics` and `nodataMismatches` sequences across
all `NUM_VERIFIED_ITERATIONS` iterations (and agree on reaching the fatal
exit, if any). -/
theorem nanRefinesSentinel (raster : Int → Cell) (hwf : ∀ i, WfCell (raster i))
    (coords : List (ℚ × ℚ)) (ess : List (List ℚ))
    (hlen : ess.length = NUM_VERIFIED_ITERATIONS)
    (errorStatistics : List ℚ) (nodataMismatches : List Int) :
    nanComputeAndCompare (some raster) (some coords) (some ess)
        errorStatistics nodataMismatches
      = sentinelComputeAndCompare (some (fun i => sentinelOf (raster i)))
          (some coords) (some ess) errorStatistics nodataMismatches := by
  show nanRun raster coords ess errorStatistics nodataMismatches
    = sentinelRun (fun i => sentinelOf (raster i)) coords ess
        errorStatistics nodataMismatches
  rw [run_equiv raster hwf]

/-- Closed instance of `nanRefinesSentinel` on an all-missing raster with a
single interpolation point and ten verification iterations. -/
theorem nanRefinesSentinel_witness :
    nanComputeAndCompare (some fun _ => Cell.missing 0) (some [((1 : ℚ) / 2, 1 / 2)])
        (some (List.replicate 10 [(0 : ℚ)])) (List.replicate 10 0)
        (List.replicate 10 0)
      = sentinelComputeAndCompare
          (some fun i => sentinelOf ((fun _ => Cell.missing 0) i))
          (some [((1 : ℚ) / 2, 1 / 2)]) (some (List.replicate 10 [(0 : ℚ)]))
          (List.replicate 10 0) (List.replicate 10 0) :=
  nanRefinesSentinel (fun _ => Cell.missing 0) (fun _ => by norm_num [WfCell])
    [((1 : ℚ) / 2, 1 / 2)] (List.replicate 10 [(0 : ℚ)])
    (by simp [NUM_VERIFIED_ITERATIONS]) (List.replicate 10 0)
    (List.replicate 10 0)

/-- C7: after every sample, in both variants, the new x coordinate is
`fmod(abs(x + resultOrSurrogate), WIDTH - 1)` and the new y coordinate is
`fmod(abs(y + resultOrSurrogate), HEIGHT - 1)`, where `resultOrSurrogate`
is the interpolated value when the sample is valid and exactly the scalar 1
(not the reason code) when the sample is missing — in the NaN codec
`(nanInterp ...).getD 1`, in the sentinel codec the interpolation guarded by
the threshold test on `sentinelMVR`. -/
theorem feedbackSurrogate (rasterN : Int → Cell) (rasterS : Int → ℚ)
    (x y e stats : ℚ) (mm : Int) (outN outS : PointOut)
    (hN : nanPoint rasterN x y e stats mm = some outN)
    (hS : sentinelPoint rasterS x y e stats mm = some outS) :
    (outN.x = fmodQ |x + (nanInterp rasterN x y).getD 1| ((WIDTH : ℚ) - 1)
      ∧ outN.y = fmodQ |y + (nanInterp rasterN x y).getD 1| ((HEIGHT : ℚ) - 1))
    ∧ (outS.x = fmodQ
        |x + (if (MISSING_VALUE_THRESHOLD : ℚ) ≤ sentinelMVR rasterS x y then 1
          else sentinelInterp rasterS x y)| ((WIDTH : ℚ) - 1)
      ∧ outS.y = fmodQ
        |y + (if (MISSING_VALUE_THRESHOLD : ℚ) ≤ sentinelMVR rasterS x y then 1
          else sentinelInterp rasterS x y)| ((HEIGHT : ℚ) - 1)) := by
  constructor
  · unfold nanPoint at hN
    split at hN
    · exact absurd hN (by simp)
    · cases hi : nanInterp rasterN x y with
      | none =>
        rw [hi] at hN
        simp only [Option.some.injEq] at hN
        subst hN
        simp [hi]
      | some r =>
        rw [hi] at hN
        simp only [] at hN
        split at hN <;>
          (simp only [Option.some.injEq] at hN; subst hN; simp [hi])
  · unfold sentinelPoint at hS
    split at hS
    · exact absurd hS (by simp)
    · by_cases hm2 : (MISSING_VALUE_THRESHOLD : ℚ) ≤ sentinelMVR rasterS x y
      · rw [if_pos hm2] at hS
        simp only [Option.some.injEq] at hS
        subst hS
        simp [hm2]
      · rw [if_neg hm2] at hS
        simp only [] at hS
        split at hS <;>
          (simp only [Option.some.injEq] at hS; subst hS; simp [hm2])

/-- Closed instance of `feedbackSurrogate` on an all-missing raster at the
point `(1/2, 1/2)`: both codecs add the surrogate 1 before the `fmod`. -/
theorem feedbackSurrogate_witness :
    ((3 : ℚ) / 2 = fmodQ |(1 : ℚ) / 2
        + (nanInterp (fun _ => Cell.missing 0) (1 / 2) (1 / 2)).getD 1|
        ((WIDTH : ℚ) - 1)
      ∧ (3 : ℚ) / 2 = fmodQ |(1 : ℚ) / 2
        + (nanInterp (fun _ => Cell.missing 0) (1 / 2) (1 / 2)).getD 1|
        ((HEIGHT : ℚ) - 1))
    ∧ ((3 : ℚ) / 2 = fmodQ |(1 : ℚ) / 2
        + (if (MISSING_VALUE_THRESHOLD : ℚ)
            ≤ sentinelMVR (fun _ => (10000 : ℚ)) (1 / 2) (1 / 2) then 1
          else sentinelInterp (fun _ => (10000 : ℚ)) (1 / 2) (1 / 2))|
        ((WIDTH : ℚ) - 1)
      ∧ (3 : ℚ) / 2 = fmodQ |(1 : ℚ) / 2
        + (if (MISSING_VALUE_THRESHOLD : ℚ)
            ≤ sentinelMVR (fun _ => (10000 : ℚ)) (1 / 2) (1 / 2) then 1
          else sentinelInterp (fun _ => (10000 : ℚ)) (1 / 2) (1 / 2))|
        ((HEIGHT : ℚ) - 1)) :=
  feedbackSurrogate (fun _ => Cell.missing 0) (fun _ => (10000 : ℚ))
    (1 / 2) (1 / 2) 0 0 0 ⟨3 / 2, 3 / 2, 0, 1⟩ ⟨3 / 2, 3 / 2, 0, 1⟩
    (by
      unfold nanPoint nanInterp nanCombine
      norm_num [fatalBranch, offsetOf, WIDTH, HEIGHT, toD, subD, fmaD, bitsOf,
        combine, toSigned, nanToNodata, FIRST_QUIET_NAN, MISSING_VALUE_THRESHOLD,
        fmodQ]
      rw [show |(3 : ℚ) / 2| = 3 / 2 by norm_num]
      norm_num)
    (by
      unfold sentinelPoint sentinelMVR
      norm_num [fatalBranch, offsetOf, WIDTH, HEIGHT, MISSING_VALUE_THRESHOLD,
        fmodQ]
      rw [show |(3 : ℚ) / 2| = 3 / 2 by norm_num]
      norm_num)

lemma fmodQ_nonneg_lt (a m : ℚ) (hm : 0 < m) : 0 ≤ fmodQ a m ∧ fmodQ a m < m := by
  unfold fmodQ
  have h1 : ((⌊a / m⌋ : ℚ)) ≤ a / m := Int.floor_le _
  have h2 : a / m < (⌊a / m⌋ : ℚ) + 1 := Int.lt_floor_add_one _
  have hma : m * (a / m) = a := by field_simp
  constructor
  · have hmul := mul_le_mul_of_nonneg_left h1 hm.le
    linarith
  · have hmul := mul_lt_mul_of_pos_left h2 hm
    have hexp : m * ((⌊a / m⌋ : ℚ) + 1) = m * (⌊a / m⌋ : ℚ) + m := by ring
    linarith

lemma nanPoint_range {raster : Int → Cell} {x y e stats : ℚ} {mm : Int}
    {out : PointOut} (h : nanPoint raster x y e stats mm = some out) :
    0 ≤ out.x ∧ out.x < (WIDTH : ℚ) - 1 ∧ 0 ≤ out.y ∧ out.y < (HEIGHT : ℚ) - 1 := by
  have hw : (0 : ℚ) < (WIDTH : ℚ) - 1 := by norm_num [WIDTH]
  have hh : (0 : ℚ) < (HEIGHT : ℚ) - 1 := by norm_num [HEIGHT]
  unfold nanPoint at h
  split at h
  · exact absurd h (by simp)
  · split at h
    · simp only [Option.some.injEq] at h
      subst h
      exact ⟨(fmodQ_nonneg_lt _ _ hw).1, (fmodQ_nonneg_lt _ _ hw).2,
        (fmodQ_nonneg_lt _ _ hh).1, (fmodQ_nonneg_lt _ _ hh).2⟩
    · split at h <;>
        (simp only [Option.some.injEq] at h; subst h;
          exact ⟨(fmodQ_nonneg_lt _ _ hw).1, (fmodQ_nonneg_lt _ _ hw).2,
            (fmodQ_nonneg_lt _ _ hh).1, (fmodQ_nonneg_lt _ _ hh).2⟩)

lemma sentinelPoint_range {raster : Int → ℚ} {x y e stats : ℚ} {mm : Int}
    {out : PointOut} (h : sentinelPoint raster x y e stats mm = some out) :
    0 ≤ out.x ∧ out.x < (WIDTH : ℚ) - 1 ∧ 0 ≤ out.y ∧ out.y < (HEIGHT : ℚ) - 1 := by
  have hw : (0 : ℚ) < (WIDTH : ℚ) - 1 := by norm_num [WIDTH]
  have hh : (0 : ℚ) < (HEIGHT : ℚ) - 1 := by norm_num [HEIGHT]
  unfold sentinelPoint at h
  split at h
  · exact absurd h (by simp)
  · split at h
    · simp only [Option.some.injEq] at h
      subst h
      exact ⟨(fmodQ_nonneg_lt _ _ hw).1, (fmodQ_nonneg_lt _ _ hw).2,
        (fmodQ_nonneg_lt _ _ hh).1, (fmodQ_nonneg_lt _ _ hh).2⟩
    · split at h <;>
        (simp only [Option.some.injEq] at h; subst h;
          exact ⟨(fmodQ_nonneg_lt _ _ hw).1, (fmodQ_nonneg_lt _ _ hw).2,
            (fmodQ_nonneg_lt _ _ hh).1, (fmodQ_nonneg_lt _ _ hh).2⟩)

lemma fatalBranch_false_of_range {x y : ℚ} (hx0 : 0 ≤ x)
    (hx1 : x < (WIDTH : ℚ) - 1) (hy0 : 0 ≤ y) (hy1 : y < (HEIGHT : ℚ) - 1) :
    fatalBranch (offsetOf x y) = false := by
  have hxf0 : (0 : Int) ≤ ⌊x⌋ := Int.floor_nonneg.mpr hx0
  have hyf0 : (0 : Int) ≤ ⌊y⌋ := Int.floor_nonneg.mpr hy0
  have hxf1 : ⌊x⌋ < 799 := Int.floor_lt.mpr (by norm_num [WIDTH] at hx1 ⊢; linarith)
  have hyf1 : ⌊y⌋ < 599 := Int.floor_lt.mpr (by norm_num [HEIGHT] at hy1 ⊢; linarith)
  simp only [fatalBranch, offsetOf, WIDTH, HEIGHT, decide_eq_false_iff_not,
    not_or, not_lt, not_le]
  omega

lemma nanPoint_isSome {raster : Int → Cell} {x y : ℚ} (e stats : ℚ) (mm : Int)
    (hf : fatalBranch (offsetOf x y) = false) :
    ∃ o, nanPoint raster x y e stats mm = some o := by
  unfold nanPoint
  rw [hf]
  simp only [Bool.false_eq_true, if_false]
  cases nanInterp raster x y with
  | none => exact ⟨_, rfl⟩
  | some r =>
    simp only []
    split
    · exact ⟨_, rfl⟩
    · exact ⟨_, rfl⟩

lemma sentinelPoint_isSome {raster : Int → ℚ} {x y : ℚ} (e stats : ℚ) (mm : Int)
    (hf : fatalBranch (offsetOf x y) = false) :
    ∃ o, sentinelPoint raster x y e stats mm = some o := by
  unfold sentinelPoint
  rw [hf]
  simp only [Bool.false_eq_true, if_false]
  split
  · exact ⟨_, rfl⟩
  · split
    · exact ⟨_, rfl⟩
    · exact ⟨_, rfl⟩

lemma nanIter_ranges {raster : Int → Cell} :
    ∀ {l : List ((ℚ × ℚ) × ℚ)} {stats : ℚ} {mm : Int}
      {out : List (ℚ × ℚ) × ℚ × Int}, nanIter raster l stats mm = some out →
      ∀ p ∈ out.1, 0 ≤ p.1 ∧ p.1 < (WIDTH : ℚ) - 1 ∧ 0 ≤ p.2 ∧ p.2 < (HEIGHT : ℚ) - 1 := by
  intro l
  induction l with
  | nil =>
    intro stats mm out h p hp
    simp only [nanIter, Option.some.injEq] at h
    subst h
    simp at hp
  | cons q rest ih =>
    obtain ⟨⟨x, y⟩, e⟩ := q
    intro stats mm out h p hp
    simp only [nanIter] at h
    cases ho : nanPoint raster x y e stats mm with
    | none => rw [ho] at h; exact absurd h (by simp)
    | some o =>
      rw [ho] at h
      simp only [] at h
      cases hr : nanIter raster rest o.stats o.mm with
      | none => rw [hr] at h; exact absurd h (by simp)
      | some r =>
        rw [hr] at h
        obtain ⟨cs, s, m⟩ := r
        simp only [Option.some.injEq] at h
        subst h
        simp only [List.mem_cons] at hp
        rcases hp with hp | hp
        · subst hp
          exact nanPoint_range ho
        · exact ih hr p hp

lemma sentinelIter_ranges {raster : Int → ℚ} :
    ∀ {l : List ((ℚ × ℚ) × ℚ)} {stats : ℚ} {mm : Int}
      {out : List (ℚ × ℚ) × ℚ × Int}, sentinelIter raster l stats mm = some out →
      ∀ p ∈ out.1, 0 ≤ p.1 ∧ p.1 < (WIDTH : ℚ) - 1 ∧ 0 ≤ p.2 ∧ p.2 < (HEIGHT : ℚ) - 1 := by
  intro l
  induction l with
  | nil =>
    intro stats mm out h p hp
    simp only [sentinelIter, Option.some.injEq] at h
    subst h
    simp at hp
  | cons q rest ih =>
    obtain ⟨⟨x, y⟩, e⟩ := q
    intro stats mm out h p hp
    simp only [sentinelIter] at h
    cases ho : sentinelPoint raster x y e stats mm with
    | none => rw [ho] at h; exact absurd h (by simp)
    | some o =>
      rw [ho] at h
      simp only [] at h
      cases hr : sentinelIter raster rest o.stats o.mm with
      | none => rw [hr] at h; exact absurd h (by simp)
      | some r =>
        rw [hr] at h
        obtain ⟨cs, s, m⟩ := r
        simp only [Option.some.injEq] at h
        subst h
        simp only [List.mem_cons] at hp
        rcases hp with hp | hp
        · subst hp
          exact sentinelPoint_range ho
        · exact ih hr p hp

lemma nanIter_isSome {raster : Int → Cell} :
    ∀ {l : List ((ℚ × ℚ) × ℚ)},
      (∀ p ∈ l, 0 ≤ p.1.1 ∧ p.1.1 < (WIDTH : ℚ) - 1
        ∧ 0 ≤ p.1.2 ∧ p.1.2 < (HEIGHT : ℚ) - 1) →
      ∀ (stats : ℚ) (mm : Int), nanIter raster l stats mm ≠ none := by
  intro l
  induction l with
  | nil => intro _ stats mm; simp [nanIter]
  | cons q rest ih =>
    obtain ⟨⟨x, y⟩, e⟩ := q
    intro hl stats mm
    have hq := hl ((x, y), e) (by simp)
    obtain ⟨o, ho⟩ := @nanPoint_isSome raster x y e stats mm
      (fatalBranch_false_of_range hq.1 hq.2.1 hq.2.2.1 hq.2.2.2)
    simp only [nanIter, ho]
    cases hr : nanIter raster rest o.stats o.mm with
    | none =>
      exact absurd hr (ih (fun p hp => hl p (List.mem_cons_of_mem _ hp)) o.stats o.mm)
    | some r =>
      obtain ⟨cs, s, m⟩ := r
      simp

lemma sentinelIter_isSome {raster : Int → ℚ} :
    ∀ {l : List ((ℚ × ℚ) × ℚ)},
      (∀ p ∈ l, 0 ≤ p.1.1 ∧ p.1.1 < (WIDTH : ℚ) - 1
        ∧ 0 ≤ p.1.2 ∧ p.1.2 < (HEIGHT : ℚ) - 1) →
      ∀ (stats : ℚ) (mm : Int), sentinelIter raster l stats mm ≠ none := by
  intro l
  induction l with
  | nil => intro _ stats mm; simp [sentinelIter]
  | cons q rest ih =>
    obtain ⟨⟨x, y⟩, e⟩ := q
    intro hl stats mm
    have hq := hl ((x, y), e) (by simp)
    obtain ⟨o, ho⟩ := @sentinelPoint_isSome raster x y e stats mm
      (fatalBranch_false_of_range hq.1 hq.2.1 hq.2.2.1 hq.2.2.2)
    simp only [sentinelIter, ho]
    cases hr : sentinelIter raster rest o.stats o.mm with
    | none =>
      exact absurd hr (ih (fun p hp => hl p (List.mem_cons_of_mem _ hp)) o.stats o.mm)
    | some r =>
      obtain ⟨cs, s, m⟩ := r
      simp

lemma nanRun_isSome {raster : Int → Cell} :
    ∀ (ess : List (List ℚ)) (coords : List (ℚ × ℚ)) (e0s : List ℚ)
      (m0s : List Int),
      (∀ p ∈ coords, 0 ≤ p.1 ∧ p.1 < (WIDTH : ℚ) - 1
        ∧ 0 ≤ p.2 ∧ p.2 < (HEIGHT : ℚ) - 1) →
      nanRun raster coords ess e0s m0s ≠ none := by
  intro ess
  induction ess with
  | nil => intro coords e0s m0s _; simp [nanRun]
  | cons es rest ih =>
    intro coords e0s m0s hc
    have hzip : ∀ p ∈ coords.zip es, 0 ≤ p.1.1 ∧ p.1.1 < (WIDTH : ℚ) - 1
        ∧ 0 ≤ p.1.2 ∧ p.1.2 < (HEIGHT : ℚ) - 1 :=
      fun p hp => hc p.1 (List.of_mem_zip hp).1
    cases hi : nanIter raster (coords.zip es) (e0s.headD 0) (m0s.headD 0) with
    | none => exact absurd hi (nanIter_isSome hzip _ _)
    | some out =>
      obtain ⟨coords2, s, m⟩ := out
      simp only [nanRun, hi]
      cases hr : nanRun raster coords2 rest e0s.tail m0s.tail with
      | none =>
        exact absurd hr (ih coords2 e0s.tail m0s.tail
          (fun p hp => nanIter_ranges hi p hp))
      | some r =>
        obtain ⟨ss, ms⟩ := r
        simp

lemma sentinelRun_isSome {raster : Int → ℚ} :
    ∀ (ess : List (List ℚ)) (coords : List (ℚ × ℚ)) (e0s : List ℚ)
      (m0s : List Int),
      (∀ p ∈ coords, 0 ≤ p.1 ∧ p.1 < (WIDTH : ℚ) - 1
        ∧ 0 ≤ p.2 ∧ p.2 < (HEIGHT : ℚ) - 1) →
      sentinelRun raster coords ess e0s m0s ≠ none := by
  intro ess
  induction ess with
  | nil => intro coords e0s m0s _; simp [sentinelRun]
  | cons es rest ih =>
    intro coords e0s m0s hc
    have hzip : ∀ p ∈ coords.zip es, 0 ≤ p.1.1 ∧ p.1.1 < (WIDTH : ℚ) - 1
        ∧ 0 ≤ p.1.2 ∧ p.1.2 < (HEIGHT : ℚ) - 1 :=
      fun p hp => hc p.1 (List.of_mem_zip hp).1
    cases hi : sentinelIter raster (coords.zip es) (e0s.headD 0) (m0s.headD 0) with
    | none => exact absurd hi (sentinelIter_isSome hzip _ _)
    | some out =>
      obtain ⟨coords2, s, m⟩ := out
      simp only [sentinelRun, hi]
      cases hr : sentinelRun raster coords2 rest e0s.tail m0s.tail with
      | none =>
        exact absurd hr (ih coords2 e0s.tail m0s.tail
          (fun p hp => sentinelIter_ranges hi p hp))
      | some r =>
        obtain ⟨ss, ms⟩ := r
        simp

/-- C9: in both variants, every coordinate pair produced by the feedback
update lies in `[0, WIDTH-1) × [0, HEIGHT-1)`; such coordinates always yield
a base offset for which the fatal branch is not taken; consequently, once
one iteration completes, the remainder of the run can never reach the fatal
exit. -/
theorem coordsStayInRange :
    (∀ (raster : Int → Cell) (x y e stats : ℚ) (mm : Int) (out : PointOut),
        nanPoint raster x y e stats mm = some out →
          0 ≤ out.x ∧ out.x < (WIDTH : ℚ) - 1 ∧ 0 ≤ out.y ∧ out.y < (HEIGHT : ℚ) - 1)
    ∧ (∀ (raster : Int → ℚ) (x y e stats : ℚ) (mm : Int) (out : PointOut),
        sentinelPoint raster x y e stats mm = some out →
          0 ≤ out.x ∧ out.x < (WIDTH : ℚ) - 1 ∧ 0 ≤ out.y ∧ out.y < (HEIGHT : ℚ) - 1)
    ∧ (∀ x y : ℚ, 0 ≤ x → x < (WIDTH : ℚ) - 1 → 0 ≤ y → y < (HEIGHT : ℚ) - 1 →
        fatalBranch (offsetOf x y) = false)
    ∧ (∀ (raster : Int → Cell) (coords : List (ℚ × ℚ)) (es : List ℚ)
        (stats : ℚ) (mm : Int) (out : List (ℚ × ℚ) × ℚ × Int),
        nanIter raster (coords.zip es) stats mm = some out →
        ∀ (rest : List (List ℚ)) (e0s : List ℚ) (m0s : List Int),
          nanRun raster out.1 rest e0s m0s ≠ none)
    ∧ (∀ (raster : Int → ℚ) (coords : List (ℚ × ℚ)) (es : List ℚ)
        (stats : ℚ) (mm : Int) (out : List (ℚ × ℚ) × ℚ × Int),
        sentinelIter raster (coords.zip es) stats mm = some out →
        ∀ (rest : List (List ℚ)) (e0s : List ℚ) (m0s : List Int),
          sentinelRun raster out.1 rest e0s m0s ≠ none) :=
  ⟨fun _ _ _ _ _ _ _ h => nanPoint_range h,
   fun _ _ _ _ _ _ _ h => sentinelPoint_range h,
   fun _ _ hx0 hx1 hy0 hy1 => fatalBranch_false_of_range hx0 hx1 hy0 hy1,
   fun _ _ _ _ _ _ h _ e0s m0s =>
     nanRun_isSome _ _ e0s m0s (fun p hp => nanIter_ranges h p hp),
   fun _ _ _ _ _ _ h _ e0s m0s =>
     sentinelRun_isSome _ _ e0s m0s (fun p hp => sentinelIter_ranges h p hp)⟩

/-- Closed instance of `coordsStayInRange`: the point produced by the NaN
variant on an all-missing raster at `(1/2, 1/2)` lands back inside
`[0, 799) × [0, 599)`. -/
theorem coordsStayInRange_witness :
    0 ≤ (3 : ℚ) / 2 ∧ (3 : ℚ) / 2 < (WIDTH : ℚ) - 1
      ∧ 0 ≤ (3 : ℚ) / 2 ∧ (3 : ℚ) / 2 < (HEIGHT : ℚ) - 1 :=
  coordsStayInRange.1 (fun _ => Cell.missing 0) (1 / 2) (1 / 2) 0 0 0
    ⟨3 / 2, 3 / 2, 0, 1⟩
    (by
      unfold nanPoint nanInterp nanCombine
      norm_num [fatalBranch, offsetOf, WIDTH, HEIGHT, toD, subD, fmaD, bitsOf,
        combine, toSigned, nanToNodata, FIRST_QUIET_NAN, MISSING_VALUE_THRESHOLD,
        fmodQ]
      rw [show |(3 : ℚ) / 2| = 3 / 2 by norm_num]
      norm_num)

/-- C10: when loading the raster, the coordinates or the expected results
fails (returns no buffer), `computeAndCompare` performs no interpolation and
returns the statistics arrays unchanged at their construction-time all-zero
values, on which `success` returns true even though no verification ran —
for both variants. -/
theorem loadFailureLeavesZeros (rasterN : Option (Int → Cell))
    (rasterS : Option (Int → ℚ)) (coordsN coordsS : Option (List (ℚ × ℚ)))
    (essN essS : Option (List (List ℚ)))
    (hN : rasterN = none ∨ coordsN = none ∨ essN = none)
    (hS : rasterS = none ∨ coordsS = none ∨ essS = none) :
    nanComputeAndCompare rasterN coordsN essN
        (List.replicate NUM_VERIFIED_ITERATIONS 0)
        (List.replicate NUM_VERIFIED_ITERATIONS 0)
      = some (List.replicate NUM_VERIFIED_ITERATIONS 0,
          List.replicate NUM_VERIFIED_ITERATIONS 0)
    ∧ sentinelComputeAndCompare rasterS coordsS essS
        (List.replicate NUM_VERIFIED_ITERATIONS 0)
        (List.replicate NUM_VERIFIED_ITERATIONS 0)
      = some (List.replicate NUM_VERIFIED_ITERATIONS 0,
          List.replicate NUM_VERIFIED_ITERATIONS 0)
    ∧ success (List.replicate NUM_VERIFIED_ITERATIONS 0)
        (List.replicate NUM_VERIFIED_ITERATIONS 0) = true := by
  refine ⟨?_, ?_, by decide⟩
  · rcases hN with h | h | h
    · subst h
      rfl
    · subst h
      cases rasterN <;> rfl
    · subst h
      cases rasterN with
      | none => rfl
      | some r => cases coordsN <;> rfl
  · rcases hS with h | h | h
    · subst h
      rfl
    · subst h
      cases rasterS <;> rfl
    · subst h
      cases rasterS with
      | none => rfl
      | some r => cases coordsS <;> rfl

/-- Closed instance of `loadFailureLeavesZeros` with every load failing. -/
theorem loadFailureLeavesZeros_witness :
    nanComputeAndCompare none none none
        (List.replicate NUM_VERIFIED_ITERATIONS 0)
        (List.replicate NUM_VERIFIED_ITERATIONS 0)
      = some (List.replicate NUM_VERIFIED_ITERATIONS 0,
          List.replicate NUM_VERIFIED_ITERATIONS 0)
    ∧ sentinelComputeAndCompare none none none
        (List.replicate NUM_VERIFIED_ITERATIONS 0)
        (List.replicate NUM_VERIFIED_ITERATIONS 0)
      = some (List.replicate NUM_VERIFIED_ITERATIONS 0,
          List.replicate NUM_VERIFIED_ITERATIONS 0)
    ∧ success (List.replicate NUM_VERIFIED_ITERATIONS 0)
        (List.replicate NUM_VERIFIED_ITERATIONS 0) = true :=
  loadFailureLeavesZeros none none none none none none (Or.inl rfl) (Or.inl rfl)

end NanDemo
